import Mathlib

/-!
Verification development for the `neural-mt-de-en` repository.

The repository's driver `nmt.py` dispatches a `train` command (training loop:
teacher-forcing decay, checkpoint saving) and a `decode` command (beam search
over a test corpus, rendering hypotheses to text files).  The beam search core
itself (`utils.beam_search`) is not among the given sources, only its caller
`nmt.py` and its specification; it is therefore modelled here from the spec
(§3, §4.1, §4.2, §6, §7 of the design document), while everything decided by
`nmt.py` is embedded directly from that file.

Numbers: decoding scores (sums of log-probabilities) are modelled as integers;
the teacher-forcing ratio (a Python float compared and decremented by exact
constants) is modelled as a rational number.
-/

namespace NMT

/-! ### Spec-modelled beam search core

`utils.beam_search` and the model's step function are external to the given
sources.  The definitions below are modelled from the spec. -/

/-- Modelled from the spec: a Hypothesis (§3) — one candidate output sequence.
`value` is the ordered token-id sequence starting with the start-of-sequence id
(the field name `value` follows the caller `nmt.py`, line 204, which reads
`hyps[0].value`); `score` is the cumulative sum of step log-probabilities;
`state` is the opaque per-hypothesis model state, copied (not shared) into each
child on expansion.  Attention history is diagnostic only (§3) and is omitted. -/
structure Hyp (σ : Type) where
  value : List Nat
  score : Int
  state : σ
deriving DecidableEq, Repr

/-- Modelled from the spec: the Sequence Model's step function (§6) — given the
previous token id and the opaque prior state, return the log-probability vector
over the target vocabulary (index = token id) and a new state, or fail
(`ModelStepFailure`, §7).  The per-example source representation is fixed for
the whole decode, so it is closed over by the function. -/
def StepFn (σ : Type) : Type := Nat → σ → Option (List Int × σ)

/-- Modelled from the spec: the decoder's error taxonomy (§7). -/
inductive DecodeError where
  | invalidConfiguration
  | modelStepFailure
deriving DecidableEq, Repr

/-- Score comparison used for ranking: `scoreGe a b` when `a`'s cumulative
score is at least `b`'s (descending-score order). -/
def scoreGe {σ : Type} (a b : Hyp σ) : Prop := b.score ≤ a.score

instance {σ : Type} : DecidableRel (@scoreGe σ) :=
  fun a b => inferInstanceAs (Decidable (b.score ≤ a.score))

instance {σ : Type} : IsTotal (Hyp σ) scoreGe :=
  ⟨fun a b => le_total b.score a.score⟩

instance {σ : Type} : IsTrans (Hyp σ) scoreGe :=
  ⟨fun _ _ _ h1 h2 => le_trans h2 h1⟩

/-- Modelled from the spec: per-parent candidate generation (§4.1 step 2) —
take the top-`k` next-token ids by log-probability.  `logps.enum` pairs each
token id with its log-probability in ascending token order; the stable
insertion sort by descending log-probability then realises the tie-break
policy (equal log-probabilities keep ascending token order). -/
def topkTokens (k : Nat) (logps : List Int) : List (Nat × Int) :=
  (List.insertionSort (fun a b => b.2 ≤ a.2) logps.enum).take k

/-- Modelled from the spec: §4.1 steps 1–2 — invoke the step function for every
alive hypothesis (with its last token and its own state) and emit that parent's
candidate extensions in parent order; candidate score = parent score + chosen
token's log-probability, candidate state = the new state returned by the step
(one per parent, logically copied into each child).  Fails (`none`) as soon as
the step function fails. -/
def stepCandidates {σ : Type} (step : StepFn σ) (k : Nat) :
    List (Hyp σ) → Option (List (Hyp σ))
  | [] => some []
  | h :: rest =>
      match step (h.value.getLastD 0) h.state with
      | none => none
      | some (logps, s2) =>
          match stepCandidates step k rest with
          | none => none
          | some tail =>
              some (((topkTokens k logps).map fun p =>
                { value := h.value ++ [p.1], score := h.score + p.2, state := s2 }) ++ tail)

/-- A hypothesis is terminal when its most recent token is the
end-of-sequence id. -/
def isCompleted {σ : Type} (endId : Nat) (h : Hyp σ) : Bool :=
  h.value.getLastD 0 == endId

/-- Modelled from the spec: one decoding step for one unresolved example
(§4.1 steps 1–5) — pool all candidates across all alive hypotheses, select the
global top-`k` by candidate score (stable sort: ties keep parent order, then
ascending token id), move candidates ending in the end-of-sequence id to
`completed` and keep the rest as the new `alive`. -/
def beamStep {σ : Type} (step : StepFn σ) (k endId : Nat)
    (alive completed : List (Hyp σ)) :
    Option (List (Hyp σ) × List (Hyp σ)) :=
  match stepCandidates step k alive with
  | none => none
  | some cands =>
      some ((((List.insertionSort scoreGe cands).take k).filter
               fun h => !isCompleted endId h),
            completed ++ ((List.insertionSort scoreGe cands).take k).filter
               (isCompleted endId))

/-- Modelled from the spec: the per-example decoding loop — run `beamStep` up
to `t` times, stopping early once the beam is resolved (§4.1 step 6 together
with §3: once `capacity` completed hypotheses exist the beam is fully resolved,
or `alive` is empty). -/
def beamLoop {σ : Type} (step : StepFn σ) (k endId : Nat) :
    Nat → List (Hyp σ) → List (Hyp σ) → Option (List (Hyp σ) × List (Hyp σ))
  | 0, alive, completed => some (alive, completed)
  | t + 1, alive, completed =>
      if k ≤ completed.length ∨ alive.isEmpty then some (alive, completed)
      else
        match beamStep step k endId alive completed with
        | none => none
        | some (a2, c2) => beamLoop step k endId t a2 c2

/-- Modelled from the spec: decoding of one example (§4.1) — fails fast with
`InvalidConfiguration` when `k < 1` or `T < 1` (before any step function call:
the error branch does not consult `step`); otherwise seeds the beam with the
single hypothesis `[startId]` at score 0, runs the loop for at most `T` steps,
force-completes the hypotheses still alive when `T` was exhausted while
`completed` was under capacity (they are discarded when `completed` is already
full, §3), and returns the completed hypotheses sorted by descending score,
truncated to `k`.  A step-function failure yields `ModelStepFailure`. -/
def beamSearchExample {σ : Type} (step : StepFn σ) (init : σ)
    (k T startId endId : Nat) : Except DecodeError (List (Hyp σ)) :=
  if k < 1 ∨ T < 1 then .error .invalidConfiguration
  else
    match beamLoop step k endId T [{ value := [startId], score := 0, state := init }] [] with
    | none => .error .modelStepFailure
    | some (alive, completed) =>
        .ok ((List.insertionSort scoreGe
          (if k ≤ completed.length then completed else completed ++ alive)).take k)

/-- Modelled from the spec: batch orchestration (§4.2) — each example's beam
progresses independently of every other's (the lockstep union-batching of step
calls is an efficiency measure that "must not change output order or values",
§5), so the batch decode is the per-example decode applied to each source.
`model` maps a source to its per-example step function and initial state
(the "encode source" mode of §2).  A step failure for one example is isolated
to that example's entry (§7). -/
def beamSearch {α σ : Type} (model : α → StepFn σ × σ) (srcs : List α)
    (k T startId endId : Nat) : List (Except DecodeError (List (Hyp σ))) :=
  srcs.map fun src => beamSearchExample (model src).1 (model src).2 k T startId endId

/-! ### Models of `nmt.py` itself -/

/-- `nmt.py` lines 108–111 (inside `train`): one epoch's update of the
teacher-forcing ratio —
`if epoch >= 10 and epoch % (valid_every + 1) == 0 and teacher_forcing > 0.1:
teacher_forcing -= 0.05`. -/
def tfDecay (validEvery epoch : Nat) (tf : Rat) : Rat :=
  if 10 ≤ epoch ∧ epoch % (validEvery + 1) = 0 ∧ 1/10 < tf then tf - 1/20 else tf

/-- `nmt.py` line 108: the training loop's guard is `while True`; the loop body
(lines 109–183) contains no `break`, and the parsed `--max-epoch` and
`--max-num-trial` options are never read, so the guard is `true` whatever the
configured limits and however large the epoch counter has grown. -/
def trainLoopGuard (maxEpoch maxNumTrial epoch : Nat) : Bool := true

/-- `nmt.py` line 183: `epoch += 1` at the end of every loop iteration, from a
starting epoch (0 when no checkpoint is loaded, line 107); the epoch counter
after `n` iterations. -/
def trainEpochAfter (startEpoch n : Nat) : Nat := startEpoch + n

/-- The pieces of information embedded in a checkpoint filename. -/
inductive CkptField where
  | epoch
  | trainLoss
  | devPerp
  | devBleu
  | tf
deriving DecidableEq, Repr

/-- `nmt.py` lines 165–181: the fields embedded in the filename of the
checkpoint saved at the end of an epoch.  On validation epochs
(`epoch > 0 and epoch % valid_every == 0`, line 165) the name is
`epoch_{}_trainLoss_{}_devPerp_{}_devBleu_{}_TF_{}` (line 175); on every other
epoch it is `epoch_{}_trainLoss_{}_TF_{}` (line 180).  (`valid_every` is the
`--valid-every` option, a positive integer, default 1.) -/
def checkpointFields (validEvery epoch : Nat) : List CkptField :=
  if 0 < epoch ∧ epoch % validEvery = 0 then
    [.epoch, .trainLoss, .devPerp, .devBleu, .tf]
  else
    [.epoch, .trainLoss, .tf]

/-- Python's list slice `l[1:-1]`: everything but the first and the last
element (empty when `l` has at most two elements). -/
def slice1m1 {α : Type} (l : List α) : List α := (l.drop 1).dropLast

/-- `nmt.py` line 204: the rendered translation for one example —
`''.join([vocab.tgt.get_word(char.item()) for char in hyps[0].value[1:-1]])`:
the top-ranked hypothesis's token sequence with the first and last ids (the
start and end sentinels) stripped, each remaining id mapped through the target
vocabulary and joined with no separator.  (`hyps` is never empty — the decoder
returns at least one hypothesis per example — so the `[]` case is unreachable
on real inputs.) -/
def renderTop {σ : Type} (getWord : Nat → String) : List (Hyp σ) → String
  | [] => ""
  | h :: _ => String.join ((slice1m1 h.value).map getWord)

/-- `nmt.py` lines 211–215: the lines of the optional side-by-side file —
for each zipped (source, reference, hypothesis) triple, the joined source
sentence, the joined reference with sentinels stripped (`tgt_sent[1:-1]`), and
the hypothesis followed by a blank line (`'\n\n'`). -/
def sideBySideLines (srcs tgts : List (List String)) (tops : List String) :
    List String :=
  ((srcs.zip tgts).zip tops).flatMap fun p =>
    [String.join p.1.1, String.join (slice1m1 p.1.2), p.2, ""]

/-- The files written by the `decode` command: the main output file and,
optionally, the side-by-side file, each as a list of lines. -/
structure DecodeOutput where
  outputLines : List String
  sideLines : Option (List String)
deriving DecidableEq, Repr

/-- `nmt.py` lines 198–219 (`test`): given the per-example hypothesis lists
returned by beam search, render the top hypothesis of each example (line 204),
write one line per example to the output file (lines 217–219), and, exactly
when a reference target file is supplied (line 206), also write the
side-by-side file (lines 211–215). -/
def testCmd {σ : Type} (getWord : Nat → String) (srcs : List (List String))
    (tgts? : Option (List (List String))) (hypotheses : List (List (Hyp σ))) :
    DecodeOutput :=
  let tops := hypotheses.map (renderTop getWord)
  { outputLines := tops
    sideLines := tgts?.map fun tgts => sideBySideLines srcs tgts tops }

/-! ### Helper lemmas -/

theorem topkTokens_ne_nil {k : Nat} {logps : List Int} (hk : 1 ≤ k) (hl : logps ≠ []) :
    topkTokens k logps ≠ [] := by
  apply List.length_pos.mp
  unfold topkTokens
  rw [List.length_take, (List.perm_insertionSort _ _).length_eq, List.enum_length]
  have := List.length_pos.mpr hl
  omega

theorem filter_split_ne_nil {α : Type} (p : α → Bool) {l : List α} (h : l ≠ []) :
    l.filter p ≠ [] ∨ l.filter (fun x => !p x) ≠ [] := by
  cases l with
  | nil => exact absurd rfl h
  | cons a t =>
    cases hpa : p a with
    | true => left; simp [List.filter_cons, hpa]
    | false => right; simp [List.filter_cons, hpa]

theorem stepCandidates_ne_nil {σ : Type} {step : StepFn σ} {k : Nat}
    (hstep : ∀ t s l s2, step t s = some (l, s2) → l ≠ [])
    (hk : 1 ≤ k) {h : Hyp σ} {rest cs : List (Hyp σ)}
    (hc : stepCandidates step k (h :: rest) = some cs) : cs ≠ [] := by
  simp only [stepCandidates] at hc
  split at hc
  · exact absurd hc (by simp)
  · next logps s2 hs =>
    split at hc
    · exact absurd hc (by simp)
    · next tail ht =>
      have hcs := Option.some.inj hc
      intro hnil
      rw [← hcs] at hnil
      rcases List.append_eq_nil.mp hnil with ⟨hmap, -⟩
      exact topkTokens_ne_nil hk (hstep _ _ _ _ hs) (List.map_eq_nil_iff.mp hmap)

theorem beamLoop_ne_nil {σ : Type} {step : StepFn σ} {k endId : Nat}
    (hstep : ∀ t s l s2, step t s = some (l, s2) → l ≠ [])
    (hk : 1 ≤ k) :
    ∀ (t : Nat) (alive completed a c : List (Hyp σ)),
      beamLoop step k endId t alive completed = some (a, c) →
      (alive ≠ [] ∨ completed ≠ []) → (a ≠ [] ∨ c ≠ []) := by
  intro t
  induction t with
  | zero =>
    intro alive completed a c hl hin
    simp only [beamLoop] at hl
    obtain ⟨rfl, rfl⟩ : alive = a ∧ completed = c := by simpa using hl
    exact hin
  | succ t ih =>
    intro alive completed a c hl hin
    simp only [beamLoop] at hl
    split at hl
    · obtain ⟨rfl, rfl⟩ : alive = a ∧ completed = c := by simpa using hl
      exact hin
    · next hguard =>
      have halive : alive ≠ [] := by
        intro hnil
        exact hguard (Or.inr (by simp [hnil]))
      split at hl
      · exact absurd hl (by simp)
      · next a2 c2 hbs =>
        apply ih _ _ _ _ hl
        simp only [beamStep] at hbs
        split at hbs
        · exact absurd hbs (by simp)
        · next cands hsc =>
          obtain ⟨h0, rest, rfl⟩ := List.exists_cons_of_ne_nil halive
          have hcands : cands ≠ [] := stepCandidates_ne_nil hstep hk hsc
          have hsurv : (List.insertionSort scoreGe cands).take k ≠ [] := by
            apply List.length_pos.mp
            rw [List.length_take, (List.perm_insertionSort _ _).length_eq]
            have := List.length_pos.mpr hcands
            omega
          obtain ⟨ha2, hc2⟩ : _ ∧ _ := by simpa using hbs
          rcases filter_split_ne_nil (isCompleted endId) hsurv with hpos | hneg
          · right
            rw [← hc2]
            intro hnil
            exact hpos (List.append_eq_nil.mp hnil).2
          · left
            rw [← ha2]
            exact hneg

theorem beamSearchExample_ok {σ : Type} {step : StepFn σ} {init : σ}
    {k T startId endId : Nat} {res : List (Hyp σ)}
    (h : beamSearchExample step init k T startId endId = .ok res) :
    1 ≤ k ∧ 1 ≤ T ∧ ∃ alive completed,
      beamLoop step k endId T [{ value := [startId], score := 0, state := init }] [] =
        some (alive, completed) ∧
      res = (List.insertionSort scoreGe
        (if k ≤ completed.length then completed else completed ++ alive)).take k := by
  unfold beamSearchExample at h
  split at h
  · exact absurd h (by simp)
  · next hcfg =>
    push_neg at hcfg
    split at h
    · exact absurd h (by simp)
    · next alive completed heq =>
      refine ⟨by omega, by omega, alive, completed, heq, ?_⟩
      have h2 := h
      simp only [Except.ok.injEq] at h2
      exact h2.symm

theorem sorted_head_max {σ : Type} {l : List (Hyp σ)} (hs : List.Sorted scoreGe l) :
    ∀ h ∈ l, ∀ h0, l.head? = some h0 → h.score ≤ h0.score := by
  cases l with
  | nil => intro h hm; simp at hm
  | cons x xs =>
    intro h hm h0 hh
    have hx : x = h0 := by simpa using hh
    subst hx
    rcases List.mem_cons.mp hm with rfl | hmem
    · exact le_refl _
    · exact List.rel_of_sorted_cons hs _ hmem

theorem map_eraseIdx_comm {α β : Type} (f : α → β) :
    ∀ (l : List α) (i : Nat), (l.map f).eraseIdx i = (l.eraseIdx i).map f
  | [], _ => by simp
  | _ :: _, 0 => by simp [List.eraseIdx]
  | a :: t, i + 1 => by simp [List.eraseIdx, map_eraseIdx_comm f t i]

/-! ### Claim theorems -/

/-- C5: the beam search decoder fails with `InvalidConfiguration` exactly when
`k < 1` or `T < 1`; the failure is independent of the step function and the
seed (the error branch is taken before any step), and for `k ≥ 1`, `T ≥ 1` the
decoder never reports `InvalidConfiguration`. -/
theorem beam_search_invalid_config {σ : Type} (step : StepFn σ) (init : σ)
    (k T startId endId : Nat) :
    beamSearchExample step init k T startId endId = .error .invalidConfiguration ↔
      (k < 1 ∨ T < 1) := by
  constructor
  · intro h
    by_contra hcfg
    unfold beamSearchExample at h
    rw [if_neg hcfg] at h
    split at h
    · simp at h
    · simp at h
  · intro h
    unfold beamSearchExample
    rw [if_pos h]

/-- C6 (corrected): the teacher-forcing ratio is decremented by 0.05 exactly on
epochs where `epoch ≥ 10`, `epoch % (valid_every + 1) == 0` and the current
ratio exceeds 0.1; on all other epochs it is unchanged.  The claim as stated
(decay on every epoch congruent to 0 modulo `valid_every + 1`) omits the
`epoch >= 10` and `ratio > 0.1` guards of `nmt.py` line 109. -/
theorem tfDecay_schedule (validEvery epoch : Nat) (tf : Rat) :
    (10 ≤ epoch ∧ epoch % (validEvery + 1) = 0 ∧ 1/10 < tf →
      tfDecay validEvery epoch tf = tf - 1/20) ∧
    (¬(10 ≤ epoch ∧ epoch % (validEvery + 1) = 0 ∧ 1/10 < tf) →
      tfDecay validEvery epoch tf = tf) := by
  constructor
  · intro h; rw [tfDecay, if_pos h]
  · intro h; rw [tfDecay, if_neg h]

/-- C6 witness: at epoch 10 with `valid_every = 1` and ratio 1 the ratio drops
by 0.05; at epoch 9 it is unchanged. -/
theorem tfDecay_schedule_witness :
    tfDecay 1 10 1 = 1 - 1/20 ∧ tfDecay 1 9 1 = 1 :=
  ⟨(tfDecay_schedule 1 10 1).1 (by norm_num),
   (tfDecay_schedule 1 9 1).2 (by norm_num)⟩

/-- C6 counterexample: epoch 0 is congruent to 0 modulo `valid_every + 1 = 2`,
yet the ratio is left unchanged (it is not decremented by 0.05), because the
code additionally requires `epoch >= 10`. -/
theorem tfDecay_claim_cex :
    0 % (1 + 1) = 0 ∧ tfDecay 1 0 1 = 1 ∧ tfDecay 1 0 1 ≠ 1 - 1/20 := by
  refine ⟨rfl, ?_, ?_⟩ <;> norm_num [tfDecay]

/-- C7 (code bug): the training loop's guard is `while True` and the loop body
never breaks nor reads `--max-epoch` or `--max-num-trial`, so after any number
of iterations — in particular long after the epoch counter has passed any
configured limit — the loop continues; the configured epoch and trial limits
are not enforced. -/
theorem train_loop_never_stops :
    ∀ (maxEpoch maxNumTrial n : Nat),
      trainLoopGuard maxEpoch maxNumTrial (trainEpochAfter 0 n) = true :=
  fun _ _ _ => rfl

/-- C8 (corrected): checkpoints saved on validation epochs (`epoch > 0` and
`epoch % valid_every == 0`) embed epoch, training loss, validation perplexity,
validation BLEU and the teacher-forcing ratio in their filename; checkpoints
saved on all other epochs embed only epoch, training loss and the
teacher-forcing ratio. -/
theorem checkpointFields_split (validEvery epoch : Nat) :
    (0 < epoch ∧ epoch % validEvery = 0 →
      checkpointFields validEvery epoch =
        [.epoch, .trainLoss, .devPerp, .devBleu, .tf]) ∧
    (¬(0 < epoch ∧ epoch % validEvery = 0) →
      checkpointFields validEvery epoch = [.epoch, .trainLoss, .tf]) := by
  constructor
  · intro h; rw [checkpointFields, if_pos h]
  · intro h; rw [checkpointFields, if_neg h]

/-- C8 witness: with `valid_every = 1`, the epoch-1 checkpoint name embeds all
five fields while the epoch-0 checkpoint name embeds only three. -/
theorem checkpointFields_split_witness :
    checkpointFields 1 1 = [.epoch, .trainLoss, .devPerp, .devBleu, .tf] ∧
    checkpointFields 1 0 = [.epoch, .trainLoss, .tf] :=
  ⟨(checkpointFields_split 1 1).1 (by decide),
   (checkpointFields_split 1 0).2 (by decide)⟩

/-- C8 counterexample: the checkpoint saved at epoch 0 (a non-validation
epoch; `valid_every = 1`) has no validation perplexity or BLEU in its
filename. -/
theorem checkpointFields_claim_cex :
    CkptField.devPerp ∉ checkpointFields 1 0 ∧
    CkptField.devBleu ∉ checkpointFields 1 0 := by
  decide

/-- C1: whenever the decoder succeeds on an example (beam width `k ≥ 1`, step
limit `T ≥ 1`, every log-probability vector the step function produces is
non-empty — the target vocabulary contains at least the sentinels), it returns
at least 1 and at most `k` hypotheses: hypotheses still alive when `T` is
exhausted are force-completed and included, so the result is never empty, and
the final truncation bounds it by `k`. -/
theorem beam_search_returns_one_to_k {σ : Type} (step : StepFn σ) (init : σ)
    (k T startId endId : Nat) (res : List (Hyp σ))
    (hk : 1 ≤ k) (hT : 1 ≤ T)
    (hstep : ∀ t s l s2, step t s = some (l, s2) → l ≠ [])
    (hres : beamSearchExample step init k T startId endId = .ok res) :
    1 ≤ res.length ∧ res.length ≤ k := by
  obtain ⟨hk2, hT2, alive, completed, hloop, hres_eq⟩ := beamSearchExample_ok hres
  have hinv := beamLoop_ne_nil hstep hk T _ _ _ _ hloop (Or.inl (by simp))
  subst hres_eq
  constructor
  · rw [List.length_take, (List.perm_insertionSort _ _).length_eq]
    have hfin : (if k ≤ completed.length then completed else completed ++ alive) ≠ [] := by
      split
      · next hkc =>
        intro hnil
        rw [hnil] at hkc
        simp at hkc
        omega
      · intro hnil
        rcases List.append_eq_nil.mp hnil with ⟨hc, ha⟩
        rcases hinv with h | h <;> exact h (by assumption)
    have := List.length_pos.mpr hfin
    omega
  · rw [List.length_take]
    omega

/-- C1 witness: a two-token vocabulary whose end sentinel (id 1) is always the
most probable token, with `k = 2`, `T = 2`: the decoder returns exactly two
hypotheses. -/
theorem beam_search_returns_one_to_k_witness :
    1 ≤ ([⟨[0, 1], 0, ()⟩, ⟨[0, 0, 1], -1, ()⟩] : List (Hyp Unit)).length ∧
    ([⟨[0, 1], 0, ()⟩, ⟨[0, 0, 1], -1, ()⟩] : List (Hyp Unit)).length ≤ 2 :=
  beam_search_returns_one_to_k (fun _ _ => some ([-1, 0], ())) () 2 2 0 1 _
    (by decide) (by decide)
    (by
      intro t s l s2 h
      injection h with h2
      injection h2 with ha hb
      subst ha
      simp)
    (by rfl)

/-- C2: whenever the decoder succeeds on an example, the returned hypotheses
are sorted by non-increasing cumulative score (`scoreGe a b` means
`b.score ≤ a.score`), so the hypothesis at index 0 has maximal score. -/
theorem beam_search_sorted_by_score {σ : Type} (step : StepFn σ) (init : σ)
    (k T startId endId : Nat) (res : List (Hyp σ))
    (hres : beamSearchExample step init k T startId endId = .ok res) :
    List.Sorted scoreGe res ∧
    ∀ h ∈ res, ∀ h0, res.head? = some h0 → h.score ≤ h0.score := by
  obtain ⟨-, -, alive, completed, -, hres_eq⟩ := beamSearchExample_ok hres
  subst hres_eq
  have hs : List.Sorted scoreGe
      ((List.insertionSort scoreGe
        (if k ≤ completed.length then completed else completed ++ alive)).take k) :=
    List.Pairwise.sublist (List.take_sublist _ _) (List.sorted_insertionSort scoreGe _)
  exact ⟨hs, sorted_head_max hs⟩

/-- C2 witness: on the concrete decode of the C1 scenario the two returned
hypotheses (scores 0 and −1) are in non-increasing score order, and every
returned hypothesis scores at most the score of the one at index 0. -/
theorem beam_search_sorted_by_score_witness :
    List.Sorted scoreGe ([⟨[0, 1], 0, ()⟩, ⟨[0, 0, 1], -1, ()⟩] : List (Hyp Unit)) ∧
    ∀ h ∈ ([⟨[0, 1], 0, ()⟩, ⟨[0, 0, 1], -1, ()⟩] : List (Hyp Unit)), ∀ h0,
      ([⟨[0, 1], 0, ()⟩, ⟨[0, 0, 1], -1, ()⟩] : List (Hyp Unit)).head? = some h0 →
      h.score ≤ h0.score :=
  beam_search_sorted_by_score (fun _ _ => some ([-1, 0], ())) () 2 2 0 1 _ (by rfl)

/-- C3: decoding is deterministic — two runs of the batch decoder with the
same (deterministic, purely functional) per-example step functions and initial
states, the same sources, beam width, step limit and sentinel ids produce
identical results: the same token sequences and the same scores for every
example. -/
theorem beam_search_deterministic {α σ : Type} (model1 model2 : α → StepFn σ × σ)
    (srcs1 srcs2 : List α) (k1 k2 T1 T2 start1 start2 end1 end2 : Nat)
    (hm : model1 = model2) (hs : srcs1 = srcs2) (hk : k1 = k2) (hT : T1 = T2)
    (hstart : start1 = start2) (hend : end1 = end2) :
    beamSearch model1 srcs1 k1 T1 start1 end1 =
    beamSearch model2 srcs2 k2 T2 start2 end2 := by
  subst hm hs hk hT hstart hend
  rfl

/-- C3 witness: two identical concrete runs coincide. -/
theorem beam_search_deterministic_witness :
    beamSearch (fun _ : Nat => ((fun _ _ => some ([-1], ())), ())) [0] 1 1 0 1 =
    beamSearch (fun _ : Nat => ((fun _ _ => some ([-1], ())), ())) [0] 1 1 0 1 :=
  beam_search_deterministic _ _ _ _ _ _ _ _ _ _ _ _ rfl rfl rfl rfl rfl rfl

/-- C4: a step-function failure is isolated to its own example — if the
example at index `i` fails with `ModelStepFailure`, the batch result at index
`i` is that error (the example's hypotheses are absent), and the remaining
results are exactly the results of decoding the batch without the failing
example. -/
theorem beam_search_failure_isolated {α σ : Type} (model : α → StepFn σ × σ)
    (srcs : List α) (k T startId endId i : Nat) (src : α)
    (hi : srcs[i]? = some src)
    (hfail : beamSearchExample (model src).1 (model src).2 k T startId endId =
      .error .modelStepFailure) :
    (beamSearch model srcs k T startId endId)[i]? =
      some (.error .modelStepFailure) ∧
    (beamSearch model srcs k T startId endId).eraseIdx i =
      beamSearch model (srcs.eraseIdx i) k T startId endId := by
  constructor
  · unfold beamSearch
    rw [List.getElem?_map, hi]
    simp [hfail]
  · unfold beamSearch
    exact map_eraseIdx_comm _ srcs i

/-- C4 witness: in a two-example batch whose first example's step function
always raises, the first result is `ModelStepFailure` and dropping it leaves
exactly the decode of the batch `[1]` alone. -/
theorem beam_search_failure_isolated_witness :
    (beamSearch
        (fun n : Nat => if n = 0 then ((fun _ _ => none), ())
          else ((fun _ _ => some ([-1], ())), ()))
        [0, 1] 1 1 0 1)[0]? = some (.error .modelStepFailure) ∧
    (beamSearch
        (fun n : Nat => if n = 0 then ((fun _ _ => none), ())
          else ((fun _ _ => some ([-1], ())), ()))
        [0, 1] 1 1 0 1).eraseIdx 0 =
      beamSearch
        (fun n : Nat => if n = 0 then ((fun _ _ => none), ())
          else ((fun _ _ => some ([-1], ())), ()))
        [1] 1 1 0 1 :=
  beam_search_failure_isolated _ [0, 1] 1 1 0 1 0 0 rfl rfl

/-- C9: when beam search has produced one hypothesis list per input sentence,
the `decode` command writes exactly one decoded line per input to the output
file, in input order (the i-th line is the rendering of the i-th example's
hypotheses), and it writes the side-by-side source/reference/hypothesis file
exactly when a reference target file is supplied. -/
theorem decode_output_files {σ : Type} (getWord : Nat → String)
    (srcs : List (List String)) (tgts? : Option (List (List String)))
    (hyps : List (List (Hyp σ)))
    (hlen : hyps.length = srcs.length) :
    (testCmd getWord srcs tgts? hyps).outputLines.length = srcs.length ∧
    (testCmd getWord srcs tgts? hyps).outputLines =
      hyps.map (renderTop getWord) ∧
    ((testCmd getWord srcs tgts? hyps).sideLines.isSome ↔ tgts?.isSome) ∧
    (testCmd getWord srcs tgts? hyps).sideLines =
      tgts?.map fun tgts => sideBySideLines srcs tgts (hyps.map (renderTop getWord)) := by
  refine ⟨?_, rfl, ?_, rfl⟩
  · simp [testCmd, hlen]
  · cases tgts? <;> simp [testCmd]

/-- C9 witness: a two-sentence batch with a reference supplied — two output
lines, and the side-by-side file is produced; its shape is the zipped
source/reference/hypothesis lines. -/
theorem decode_output_files_witness :
    (testCmd (fun n => toString n) [["a"], ["b"]] (some [["s", "x", "e"], ["s", "y", "e"]])
        ([[⟨[0, 7, 1], 0, ()⟩], [⟨[0, 1], 0, ()⟩]] : List (List (Hyp Unit)))).outputLines.length = 2 ∧
    (testCmd (fun n => toString n) [["a"], ["b"]] (some [["s", "x", "e"], ["s", "y", "e"]])
        ([[⟨[0, 7, 1], 0, ()⟩], [⟨[0, 1], 0, ()⟩]] : List (List (Hyp Unit)))).outputLines =
      ([[⟨[0, 7, 1], 0, ()⟩], [⟨[0, 1], 0, ()⟩]] : List (List (Hyp Unit))).map
        (renderTop fun n => toString n) ∧
    ((testCmd (fun n => toString n) [["a"], ["b"]] (some [["s", "x", "e"], ["s", "y", "e"]])
        ([[⟨[0, 7, 1], 0, ()⟩], [⟨[0, 1], 0, ()⟩]] : List (List (Hyp Unit)))).sideLines.isSome ↔
      (some [["s", "x", "e"], ["s", "y", "e"]]).isSome) ∧
    (testCmd (fun n => toString n) [["a"], ["b"]] (some [["s", "x", "e"], ["s", "y", "e"]])
        ([[⟨[0, 7, 1], 0, ()⟩], [⟨[0, 1], 0, ()⟩]] : List (List (Hyp Unit)))).sideLines =
      (some [["s", "x", "e"], ["s", "y", "e"]]).map fun tgts =>
        sideBySideLines [["a"], ["b"]] tgts
          (([[⟨[0, 7, 1], 0, ()⟩], [⟨[0, 1], 0, ()⟩]] : List (List (Hyp Unit))).map
            (renderTop fun n => toString n)) :=
  decode_output_files (fun n => toString n) [["a"], ["b"]]
    (some [["s", "x", "e"], ["s", "y", "e"]])
    [[⟨[0, 7, 1], 0, ()⟩], [⟨[0, 1], 0, ()⟩]] rfl

/-- C10: the rendered translation of an example is built from its top-ranked
hypothesis (index 0) with the first and the last token ids removed (the start
and end sentinels) and the remaining ids mapped to words and concatenated with
no separator; a top hypothesis with at most two tokens renders as the empty
string. -/
theorem decode_render_strips_sentinels {σ : Type} (getWord : Nat → String) :
    (∀ (a b : Nat) (mid : List Nat) (sc : Int) (st : σ) (rest : List (Hyp σ)),
      renderTop getWord
          ({ value := a :: (mid ++ [b]), score := sc, state := st } :: rest) =
        String.join (mid.map getWord)) ∧
    (∀ (h : Hyp σ) (rest : List (Hyp σ)), h.value.length ≤ 2 →
      renderTop getWord (h :: rest) = "") := by
  constructor
  · intro a b mid sc st rest
    simp [renderTop, slice1m1]
  · intro h rest hlen
    obtain ⟨v, sc, st⟩ := h
    simp only [renderTop, slice1m1]
    have hv : (v.drop 1).dropLast = [] := by
      rcases v with _ | ⟨x, _ | ⟨y, _ | ⟨z, t⟩⟩⟩
      · rfl
      · rfl
      · rfl
      · simp at hlen
    rw [hv]
    rfl

/-- C10 witness: the hypothesis `[0, 7, 1]` renders as the word for token 7
alone (sentinels 0 and 1 stripped), and the hypothesis `[0, 1]` (length 2)
renders as the empty string. -/
theorem decode_render_strips_sentinels_witness :
    renderTop (fun n => toString n)
        ({ value := [0, 7, 1], score := 0, state := () } :: ([] : List (Hyp Unit))) =
      String.join ([7].map fun n => toString n) ∧
    renderTop (fun n => toString n)
        ({ value := [0, 1], score := 0, state := () } :: ([] : List (Hyp Unit))) = "" :=
  ⟨(decode_render_strips_sentinels (fun n => toString n)).1 0 1 [7] 0 () [],
   (decode_render_strips_sentinels (fun n => toString n)).2 ⟨[0, 1], 0, ()⟩ []
     (by decide)⟩

end NMT
